import Mathlib

/-!
Verification of the spectrum-combination operator of ITKMontage
(`itk::PhaseCorrelationOperator`, src/include/itkPhaseCorrelationOperator.h).

The header declares a filter templated over a real pixel type and a single
dimension `VImageDimension`; both inputs and the output are
`Image<std::complex<TRealPixel>, VImageDimension>`.  The method bodies
(`GenerateOutputInformation`, `GenerateInputRequestedRegion`,
`DynamicThreadedGenerateData`, the setters) live in
`itkPhaseCorrelationOperator.hxx`, which is not part of the available
sources; those components are modelled from the specification (spec.md
sections 4.1-4.4 and 7) and are marked `Modelled from the spec:` below.
Pixel samples are modelled as exact complex numbers over the reals; geometry
uses exact rationals for spacings and integers for indices.
-/

/-- Error taxonomy of the operator, from spec section 7: structural rank
mismatch, non-positive resolved output size, and an input sub-region that
exceeds an input spectrum's stored extent. -/
inductive PCError where
  | rankMismatch
  | incompatibleGeometry
  | regionOutOfBounds
deriving DecidableEq

/-- Geometry metadata of an N-dimensional spectrum: per-axis size (number of
frequency bins), spacing (frequency-bin width), and index (origin offset in
bin-index space).  Mirrors `SizeType`, `SpacingType`, `IndexType` of the
image class used by the operator (header lines 75-81 and 117-120). -/
structure Geometry (N : ℕ) where
  size : Fin N → ℕ
  spacing : Fin N → ℚ
  index : Fin N → ℤ
deriving DecidableEq

/-- A rectangular index region: per-axis start index and extent, mirroring
`OutputImageRegionType` (header line 81). -/
structure Region (N : ℕ) where
  index : Fin N → ℤ
  size : Fin N → ℕ
deriving DecidableEq

/-- A spectrum: geometry metadata plus the complex-valued sample buffer,
addressed by absolute bin index.  Mirrors `ImageType =
Image<std::complex<TRealPixel>, VImageDimension>` (header lines 76-78). -/
structure Spectrum (N : ℕ) where
  geom : Geometry N
  sample : (Fin N → ℤ) → ℂ

/-- Rank (dimensionality) of a spectrum: the compile-time template dimension
`VImageDimension` (header lines 50-55, 72-73). -/
def spectrumRank {N : ℕ} (_ : Spectrum N) : ℕ := N

/-- The operator with both inputs bound.  `SetFixedImage` and
`SetMovingImage` (header lines 83-87) accept only pointers to the single
instantiated `ImageType`, so fixed and moving spectra necessarily share the
template dimension `N`. -/
structure PhaseCorrelationOperator (N : ℕ) where
  fixed : Spectrum N
  moving : Spectrum N

/-- Binding of the two inputs through `SetFixedImage` / `SetMovingImage`
(header lines 83-87): both setters take the same instantiated image type. -/
def SetInputs {N : ℕ} (fixedImage movingImage : Spectrum N) :
    PhaseCorrelationOperator N :=
  { fixed := fixedImage, moving := movingImage }

/-- Modelled from the spec: the body of
`PhaseCorrelationOperator::GenerateOutputInformation` (declared at header
lines 94-97, defined in the missing itkPhaseCorrelationOperator.hxx).
Spec section 4.1: per axis, output size is the minimum of the input sizes,
output spacing the maximum of the input spacings, output index zero. -/
def resolveGeometry {N : ℕ} (fixed moving : Geometry N) : Geometry N :=
  { size := fun a => min (fixed.size a) (moving.size a)
    spacing := fun a => max (fixed.spacing a) (moving.spacing a)
    index := fun _ => 0 }

/-- The default geometry-adjustment hook `AdjustOutputInformation` (header
lines 117-120): its body is empty, so the tentative geometry is unchanged. -/
def AdjustOutputInformation {N : ℕ} (g : Geometry N) : Geometry N := g

/-- Modelled from the spec: output-information generation (missing .hxx body
of `GenerateOutputInformation`).  Resolves the tentative geometry, applies
the adjustment hook, and fails with `IncompatibleGeometry` when some axis of
the adjusted size is not positive (spec sections 4.1 and 7), before any
buffer allocation. -/
def GenerateOutputInformation {N : ℕ} (hook : Geometry N → Geometry N)
    (fixed moving : Geometry N) : Except PCError (Geometry N) :=
  let g := hook (resolveGeometry fixed moving)
  if ∀ a, 0 < g.size a then Except.ok g else Except.error PCError.incompatibleGeometry

/-- Membership of an absolute bin index in a region. -/
def memRegion {N : ℕ} (r : Region N) (i : Fin N → ℤ) : Prop :=
  ∀ a, r.index a ≤ i a ∧ i a < r.index a + r.size a

instance {N : ℕ} (r : Region N) (i : Fin N → ℤ) : Decidable (memRegion r i) :=
  inferInstanceAs (Decidable (∀ a, r.index a ≤ i a ∧ i a < r.index a + r.size a))

/-- `regionContains outer inner` holds when `inner` lies inside `outer` on
every axis. -/
def regionContains {N : ℕ} (outer inner : Region N) : Prop :=
  ∀ a, outer.index a ≤ inner.index a ∧
    inner.index a + inner.size a ≤ outer.index a + outer.size a

instance {N : ℕ} (outer inner : Region N) : Decidable (regionContains outer inner) :=
  inferInstanceAs (Decidable (∀ a, outer.index a ≤ inner.index a ∧
    inner.index a + inner.size a ≤ outer.index a + outer.size a))

/-- The region actually stored by a spectrum with the given geometry. -/
def bufferedRegion {N : ℕ} (g : Geometry N) : Region N :=
  { index := g.index, size := g.size }

/-- Translation of an output sub-region into an input's own index space by
that input's offset from the canonical output origin (spec section 4.2). -/
def translateRegion {N : ℕ} (r : Region N) (off : Fin N → ℤ) : Region N :=
  { index := fun a => r.index a + off a, size := r.size }

/-- Modelled from the spec: the body of
`PhaseCorrelationOperator::GenerateInputRequestedRegion` (declared at header
lines 99-101, defined in the missing .hxx).  Computes the baseline input
region for one input spectrum — the output sub-region translated by the
input's index offset — and fails with `RegionOutOfBounds` when that region
is not contained in the spectrum's stored extent; the region is never
clamped (spec sections 4.2 and 7). -/
def GenerateInputRequestedRegion {N : ℕ} (outReq : Region N)
    (g : Geometry N) : Except PCError (Region N) :=
  let base := translateRegion outReq g.index
  if regionContains (bufferedRegion g) base then Except.ok base
  else Except.error PCError.regionOutOfBounds

/-- C1: the resolved output geometry takes, per axis, the minimum of the
input sizes, the maximum of the input spacings, and index zero; in
particular fixed size 256 / spacing 1 against moving size 128 / spacing 2 in
rank 1 resolves to size 128 / spacing 2, and equal-geometry inputs resolve
to their common size and spacing with index 0. -/
theorem resolveGeometry_min_max_zero :
    (∀ (N : ℕ) (f m : Geometry N) (a : Fin N),
      (resolveGeometry f m).size a = min (f.size a) (m.size a) ∧
      (resolveGeometry f m).spacing a = max (f.spacing a) (m.spacing a) ∧
      (resolveGeometry f m).index a = 0) ∧
    ((resolveGeometry
        (Geometry.mk (fun _ => 256) (fun _ => 1) (fun _ => 0))
        (Geometry.mk (fun _ => 128) (fun _ => 2) (fun _ => 0)) : Geometry 1).size 0 = 128 ∧
      (resolveGeometry
        (Geometry.mk (fun _ => 256) (fun _ => 1) (fun _ => 0))
        (Geometry.mk (fun _ => 128) (fun _ => 2) (fun _ => 0)) : Geometry 1).spacing 0 = 2) ∧
    (∀ (N : ℕ) (f m : Geometry N) (S : Fin N → ℕ) (P : Fin N → ℚ),
      f.size = S → m.size = S → f.spacing = P → m.spacing = P →
      (resolveGeometry f m).size = S ∧ (resolveGeometry f m).spacing = P ∧
        ∀ a, (resolveGeometry f m).index a = 0) := by
  refine ⟨fun N f m a => ⟨rfl, rfl, rfl⟩, ⟨by norm_num [resolveGeometry], ?_⟩, ?_⟩
  · show max (1 : ℚ) 2 = 2
    norm_num
  · intro N f m S P hfs hms hfp hmp
    refine ⟨funext fun a => ?_, funext fun a => ?_, fun a => rfl⟩
    · show min (f.size a) (m.size a) = S a
      rw [hfs, hms, min_self]
    · show max (f.spacing a) (m.spacing a) = P a
      rw [hfp, hmp, max_self]

theorem resolveGeometry_min_max_zero_witness :
    (resolveGeometry
        (Geometry.mk (fun _ => 8) (fun _ => 1) (fun _ => 3))
        (Geometry.mk (fun _ => 8) (fun _ => 1) (fun _ => 5)) : Geometry 1).size
        = (fun _ => 8) ∧
      (resolveGeometry
        (Geometry.mk (fun _ => 8) (fun _ => 1) (fun _ => 3))
        (Geometry.mk (fun _ => 8) (fun _ => 1) (fun _ => 5)) : Geometry 1).spacing
        = (fun _ => 1) ∧
      ∀ a, (resolveGeometry
        (Geometry.mk (fun _ => 8) (fun _ => 1) (fun _ => 3))
        (Geometry.mk (fun _ => 8) (fun _ => 1) (fun _ => 5)) : Geometry 1).index a = 0 :=
  resolveGeometry_min_max_zero.2.2 1
    (Geometry.mk (fun _ => 8) (fun _ => 1) (fun _ => 3))
    (Geometry.mk (fun _ => 8) (fun _ => 1) (fun _ => 5))
    (fun _ => 8) (fun _ => 1) rfl rfl rfl rfl

/-- Modelled from the spec: the elementwise kernel inside
`DynamicThreadedGenerateData` (declared at header lines 104-106, body in the
missing .hxx).  Spec section 4.3: form the cross-power sample
C = F * conjugate(M) and emit the normalized value C / |C| when |C| exceeds
the positive threshold, and 0 otherwise, so that no division by zero can
occur.  Samples are exact complex numbers over the reals. -/
noncomputable def combineSample (eps : ℝ) (F M : ℂ) : ℂ :=
  if Complex.abs (F * (starRingEnd ℂ) M) > eps
  then (F * (starRingEnd ℂ) M) / (Complex.abs (F * (starRingEnd ℂ) M) : ℂ)
  else 0

/-- Modelled from the spec: per-output-index sample computation of the
combiner (spec section 4.3): fetch the fixed and moving samples at the
output index translated through each spectrum's own index offset and apply
the elementwise kernel. -/
noncomputable def combinePoint {N : ℕ} (eps : ℝ) (fixed moving : Spectrum N)
    (idx : Fin N → ℤ) : ℂ :=
  combineSample eps
    (fixed.sample (fun a => idx a + fixed.geom.index a))
    (moving.sample (fun a => idx a + moving.geom.index a))

/-- Modelled from the spec: one worker's pass of
`DynamicThreadedGenerateData` (header lines 104-106): write the combined
value at every output index of the assigned tile, leaving the rest of the
buffer untouched. -/
def DynamicThreadedGenerateData {N : ℕ} (f : (Fin N → ℤ) → ℂ)
    (tile : Region N) (buf : (Fin N → ℤ) → ℂ) : (Fin N → ℤ) → ℂ :=
  fun i => if memRegion tile i then f i else buf i

/-- Modelled from the spec: region-based multithreaded execution (spec
sections 4.3 and 5): each tile of the partition is processed by one worker
pass over the shared output buffer. -/
def runTiles {N : ℕ} (f : (Fin N → ℤ) → ℂ) (tiles : List (Region N))
    (buf : (Fin N → ℤ) → ℂ) : (Fin N → ℤ) → ℂ :=
  tiles.foldl (fun b t => DynamicThreadedGenerateData f t b) buf

/-- C2: the kernel writes C / |C| for C = F * conjugate(M) when |C| exceeds
the positive threshold and 0 otherwise; a zero fixed or moving sample yields
output 0, every output has magnitude at most 1 (so the exact-arithmetic
model never produces an infinite or undefined value), and the per-index
combiner applies this kernel to the samples fetched through each spectrum's
own index offset. -/
theorem combineSample_kernel (eps : ℝ) (heps : 0 < eps) (F M : ℂ) :
    (combineSample eps F M =
      if Complex.abs (F * (starRingEnd ℂ) M) > eps
      then (F * (starRingEnd ℂ) M) / (Complex.abs (F * (starRingEnd ℂ) M) : ℂ)
      else 0) ∧
    ((F = 0 ∨ M = 0) → combineSample eps F M = 0) ∧
    Complex.abs (combineSample eps F M) ≤ 1 ∧
    (∀ (N : ℕ) (fx mv : Spectrum N) (idx : Fin N → ℤ),
      combinePoint eps fx mv idx =
        combineSample eps
          (fx.sample (fun a => idx a + fx.geom.index a))
          (mv.sample (fun a => idx a + mv.geom.index a))) := by
  refine ⟨rfl, ?_, ?_, fun N fx mv idx => rfl⟩
  · intro h
    have hC : F * (starRingEnd ℂ) M = 0 := by
      rcases h with h | h
      · rw [h, zero_mul]
      · rw [h, map_zero, mul_zero]
    unfold combineSample
    rw [hC, map_zero, if_neg (lt_asymm heps)]
  · unfold combineSample
    by_cases h : Complex.abs (F * (starRingEnd ℂ) M) > eps
    · rw [if_pos h, map_div₀, Complex.abs_ofReal,
        abs_of_nonneg (AbsoluteValue.nonneg _ _),
        div_self (ne_of_gt (heps.trans h))]
    · rw [if_neg h, map_zero]
      exact zero_le_one

theorem combineSample_kernel_witness : combineSample 1 0 1 = 0 :=
  (combineSample_kernel 1 one_pos 0 1).2.1 (Or.inl rfl)

/-- Helper: after processing a list of tiles, an index holds the combined
value exactly when some tile of the list covers it, and the initial buffer
value otherwise. -/
theorem runTiles_apply {N : ℕ} (f : (Fin N → ℤ) → ℂ) (tiles : List (Region N))
    (buf : (Fin N → ℤ) → ℂ) (i : Fin N → ℤ) :
    runTiles f tiles buf i =
      if ∃ t ∈ tiles, memRegion t i then f i else buf i := by
  induction tiles generalizing buf with
  | nil => simp [runTiles]
  | cons t ts ih =>
    show runTiles f ts (DynamicThreadedGenerateData f t buf) i = _
    rw [ih]
    by_cases hts : ∃ u ∈ ts, memRegion u i
    · rw [if_pos hts, if_pos ⟨hts.choose, List.mem_cons_of_mem t hts.choose_spec.1,
        hts.choose_spec.2⟩]
    · rw [if_neg hts]
      unfold DynamicThreadedGenerateData
      by_cases ht : memRegion t i
      · rw [if_pos ht, if_pos ⟨t, List.mem_cons_self t ts, ht⟩]
      · rw [if_neg ht, if_neg ?_]
        rintro ⟨u, hu, hmem⟩
        rcases List.mem_cons.mp hu with rfl | hu
        · exact ht hmem
        · exact hts ⟨u, hu, hmem⟩

/-- C3: for any list of worker tiles that stays inside the output region and
jointly covers it, the multi-worker result is the same buffer, bitwise, as
the single-worker result that processes the whole output region as one tile
— independent of tile count and of tile order. -/
theorem runTiles_deterministic {N : ℕ} (f : (Fin N → ℤ) → ℂ)
    (outR : Region N) (tiles : List (Region N)) (buf : (Fin N → ℤ) → ℂ)
    (hsub : ∀ t ∈ tiles, ∀ i, memRegion t i → memRegion outR i)
    (hcov : ∀ i, memRegion outR i → ∃ t ∈ tiles, memRegion t i) :
    runTiles f tiles buf = runTiles f [outR] buf := by
  funext i
  rw [runTiles_apply, runTiles_apply]
  by_cases h : memRegion outR i
  · rw [if_pos (hcov i h), if_pos ⟨outR, List.mem_singleton.mpr rfl, h⟩]
  · rw [if_neg, if_neg]
    · rintro ⟨u, hu, hmem⟩
      exact h ((List.mem_singleton.mp hu) ▸ hmem)
    · rintro ⟨u, hu, hmem⟩
      exact h (hsub u hu i hmem)

/-- Helper: membership in a rank-1 region reduces to a bound on the single
coordinate. -/
theorem memRegion_one (r : Region 1) (i : Fin 1 → ℤ) :
    memRegion r i ↔ (r.index 0 ≤ i 0 ∧ i 0 < r.index 0 + r.size 0) := by
  constructor
  · intro h
    exact h 0
  · intro h a
    have ha : a = 0 := Subsingleton.elim a 0
    rw [ha]
    exact h

theorem runTiles_deterministic_witness :
    runTiles (fun _ => 0) [Region.mk (fun _ => 0) (fun _ => 1), Region.mk (fun _ => 1) (fun _ => 1)]
        (fun _ => 0) =
      runTiles (fun _ => (0 : ℂ)) [(Region.mk (fun _ => 0) (fun _ => 2) : Region 1)] (fun _ => 0) := by
  refine runTiles_deterministic (fun _ => 0)
    (Region.mk (fun _ => 0) (fun _ => 2))
    [Region.mk (fun _ => 0) (fun _ => 1), Region.mk (fun _ => 1) (fun _ => 1)]
    (fun _ => 0) ?_ ?_
  · intro t ht i hi
    rw [memRegion_one] at hi ⊢
    rcases List.mem_cons.mp ht with rfl | ht
    · simp only at hi ⊢
      omega
    · rcases List.mem_cons.mp ht with rfl | ht
      · simp only at hi ⊢
        omega
      · exact absurd ht (List.not_mem_nil t)
  · intro i hi
    rw [memRegion_one] at hi
    simp only at hi
    by_cases h0 : i 0 < 1
    · refine ⟨Region.mk (fun _ => 0) (fun _ => 1), List.mem_cons_self _ _, ?_⟩
      rw [memRegion_one]
      simp only
      omega
    · refine ⟨Region.mk (fun _ => 1) (fun _ => 1),
        List.mem_cons_of_mem _ (List.mem_cons_self _ _), ?_⟩
      rw [memRegion_one]
      simp only
      omega

/-- C4: the output sample at an index depends only on the fixed sample and
the moving sample fetched at that index (translated through each spectrum's
own offset): two runs whose inputs agree at those two bins produce the same
output at the index, whatever the inputs hold elsewhere. -/
theorem combinePoint_locality {N : ℕ} (eps : ℝ) (f1 m1 f2 m2 : Spectrum N)
    (idx : Fin N → ℤ)
    (hf : f1.sample (fun a => idx a + f1.geom.index a) =
      f2.sample (fun a => idx a + f2.geom.index a))
    (hm : m1.sample (fun a => idx a + m1.geom.index a) =
      m2.sample (fun a => idx a + m2.geom.index a)) :
    combinePoint eps f1 m1 idx = combinePoint eps f2 m2 idx := by
  unfold combinePoint
  rw [hf, hm]

/-- A rank-1 geometry used as a concrete instance: 4 bins, unit spacing,
origin 0. -/
def gBase : Geometry 1 :=
  Geometry.mk (fun _ => 4) (fun _ => 1) (fun _ => 0)

/-- A concrete rank-1 spectrum whose samples are all 1. -/
def specOne : Spectrum 1 :=
  Spectrum.mk gBase (fun _ => 1)

/-- A concrete rank-1 spectrum agreeing with `specOne` everywhere except at
bin 99. -/
def specOneAlt : Spectrum 1 :=
  Spectrum.mk gBase (fun i => if i 0 = 99 then 5 else 1)

theorem combinePoint_locality_witness :
    combinePoint 1 specOne specOne (fun _ => 0) =
      combinePoint 1 specOneAlt specOne (fun _ => 0) := by
  refine combinePoint_locality 1 specOne specOne specOneAlt specOne (fun _ => 0) ?_ rfl
  show (1 : ℂ) = if ((0 : ℤ) + gBase.index 0 = 99) then 5 else 1
  norm_num [gBase]

/-- C6 counterexample: the interface cannot hold a fixed spectrum of rank 2
together with a moving spectrum of rank 3, so the claimed run-time
`RankMismatch` on such a pair is unreachable — no such pair can be bound. -/
theorem rank_mismatch_unrepresentable :
    ¬ ∃ (N : ℕ) (op : PhaseCorrelationOperator N),
      spectrumRank op.fixed = 2 ∧ spectrumRank op.moving = 3 := by
  rintro ⟨N, op, h2, h3⟩
  unfold spectrumRank at h2 h3
  omega

/-- C6 (amended): `SetFixedImage` and `SetMovingImage` accept only the
single instantiated image type, so any pair of inputs the interface binds
has equal fixed and moving ranks; rank mismatch is rejected at compile time
rather than raised as a run-time error. -/
theorem SetInputs_ranks_equal :
    ∀ (N : ℕ) (f m : Spectrum N),
      spectrumRank (SetInputs f m).fixed = spectrumRank (SetInputs f m).moving :=
  fun _ _ _ => rfl

/-- C10: the operator is templated over the one dimension `VImageDimension`;
for every bound pair of inputs, fixed rank, moving rank and the template
dimension coincide, so the rank-mismatch branch can never run. -/
theorem operator_ranks_statically_equal :
    ∀ (N : ℕ) (op : PhaseCorrelationOperator N),
      spectrumRank op.fixed = N ∧ spectrumRank op.moving = N ∧
        spectrumRank op.fixed = spectrumRank op.moving :=
  fun _ _ => ⟨rfl, rfl, rfl⟩

/-- Execution state of one pipeline run: the two borrowed input spectra and
the output buffer, absent until the combination phase completes. -/
structure ExecState (N : ℕ) where
  fixed : Spectrum N
  moving : Spectrum N
  output : Option ((Fin N → ℤ) → ℂ)

/-- Modelled from the spec: one full execution (spec sections 2, 5 and 7):
resolve and hook-adjust the output geometry, check both baseline input
regions against the stored extents, then run the parallel combination over
the whole output region; any error aborts before an output buffer exists. -/
noncomputable def execute {N : ℕ} (eps : ℝ) (hook : Geometry N → Geometry N)
    (s : ExecState N) : Except PCError (ExecState N) :=
  Except.bind (GenerateOutputInformation hook s.fixed.geom s.moving.geom)
    (fun outGeom =>
      Except.bind (GenerateInputRequestedRegion (Region.mk outGeom.index outGeom.size)
          s.fixed.geom)
        (fun _ =>
          Except.bind (GenerateInputRequestedRegion (Region.mk outGeom.index outGeom.size)
              s.moving.geom)
            (fun _ =>
              Except.ok (ExecState.mk s.fixed s.moving
                (some (runTiles (combinePoint eps s.fixed s.moving)
                  [Region.mk outGeom.index outGeom.size] (fun _ => 0)))))))

/-- C5: whenever the baseline input region computed for an input spectrum is
not contained in that spectrum's stored extent, request generation fails
with `RegionOutOfBounds`; no clamped or partial region is ever returned. -/
theorem GenerateInputRequestedRegion_out_of_bounds {N : ℕ}
    (outReq : Region N) (g : Geometry N)
    (h : ¬ regionContains (bufferedRegion g) (translateRegion outReq g.index)) :
    GenerateInputRequestedRegion outReq g = Except.error PCError.regionOutOfBounds ∧
      ∀ r, GenerateInputRequestedRegion outReq g ≠ Except.ok r := by
  have he : GenerateInputRequestedRegion outReq g = Except.error PCError.regionOutOfBounds := by
    unfold GenerateInputRequestedRegion
    rw [if_neg h]
  exact ⟨he, fun r hr => by rw [he] at hr; exact Except.noConfusion hr⟩

theorem GenerateInputRequestedRegion_out_of_bounds_witness :
    GenerateInputRequestedRegion (Region.mk (fun _ => 0) (fun _ => 10)) gBase =
      Except.error PCError.regionOutOfBounds :=
  (GenerateInputRequestedRegion_out_of_bounds
    (Region.mk (fun _ => 0) (fun _ => 10)) gBase (by decide)).1

/-- Helper: region containment is reflexive. -/
theorem regionContains_refl {N : ℕ} (r : Region N) : regionContains r r :=
  fun _ => ⟨le_refl _, le_refl _⟩

/-- C8: any region that request generation actually returns for an input
contains the baseline — the output sub-region translated into that input's
own index space — so the requested region is at least as large as the
baseline (for this default combiner it is exactly the baseline). -/
theorem GenerateInputRequestedRegion_baseline {N : ℕ}
    (outReq : Region N) (g : Geometry N) (r : Region N)
    (h : GenerateInputRequestedRegion outReq g = Except.ok r) :
    regionContains r (translateRegion outReq g.index) := by
  unfold GenerateInputRequestedRegion at h
  by_cases hc : regionContains (bufferedRegion g) (translateRegion outReq g.index)
  · rw [if_pos hc] at h
    cases h
    exact regionContains_refl _
  · rw [if_neg hc] at h
    exact Except.noConfusion h

/-- Helper: a concrete in-bounds request succeeds and returns the
baseline. -/
theorem requestedRegion_ok_instance :
    GenerateInputRequestedRegion (Region.mk (fun _ => 1) (fun _ => 2)) gBase =
      Except.ok (translateRegion (Region.mk (fun _ => 1) (fun _ => 2)) gBase.index) := by
  unfold GenerateInputRequestedRegion
  rw [if_pos (by decide)]

theorem GenerateInputRequestedRegion_baseline_witness :
    regionContains
      (translateRegion (Region.mk (fun _ => 1) (fun _ => 2)) gBase.index)
      (translateRegion (Region.mk (fun _ => 1) (fun _ => 2)) gBase.index) :=
  GenerateInputRequestedRegion_baseline (Region.mk (fun _ => 1) (fun _ => 2)) gBase
    (translateRegion (Region.mk (fun _ => 1) (fun _ => 2)) gBase.index)
    requestedRegion_ok_instance

/-- C7: if the hook-adjusted output size is zero on some axis, geometry
resolution itself fails with `IncompatibleGeometry` — before any buffer
allocation — and the whole execution returns that error with no output
state; in general an execution either fails with an error carrying no
buffer, or succeeds with a complete buffer holding the combined value at
every index of the output region. -/
theorem execute_incompatible_geometry {N : ℕ} (eps : ℝ)
    (hook : Geometry N → Geometry N) (s : ExecState N)
    (h : ∃ a, (hook (resolveGeometry s.fixed.geom s.moving.geom)).size a = 0) :
    GenerateOutputInformation hook s.fixed.geom s.moving.geom =
        Except.error PCError.incompatibleGeometry ∧
      execute eps hook s = Except.error PCError.incompatibleGeometry ∧
      (∀ s2, execute eps hook s ≠ Except.ok s2) ∧
      (∀ (hook2 : Geometry N → Geometry N) (s2 : ExecState N),
        execute eps hook2 s = Except.ok s2 →
        ∃ g buf, GenerateOutputInformation hook2 s.fixed.geom s.moving.geom = Except.ok g ∧
          s2.output = some buf ∧
          ∀ i, memRegion (Region.mk g.index g.size) i →
            buf i = combinePoint eps s.fixed s.moving i) := by
  have h1 : GenerateOutputInformation hook s.fixed.geom s.moving.geom =
      Except.error PCError.incompatibleGeometry := by
    unfold GenerateOutputInformation
    rw [if_neg]
    intro hall
    obtain ⟨a, ha⟩ := h
    have hpos := hall a
    omega
  have h2 : execute eps hook s = Except.error PCError.incompatibleGeometry := by
    unfold execute
    rw [h1]
    exact rfl
  refine ⟨h1, h2, fun s2 hs2 => by rw [h2] at hs2; exact Except.noConfusion hs2, ?_⟩
  intro hook2 s2 hok
  unfold execute at hok
  cases hg : GenerateOutputInformation hook2 s.fixed.geom s.moving.geom with
  | error e => rw [hg] at hok; exact Except.noConfusion hok
  | ok g =>
    rw [hg] at hok
    simp only [Except.bind] at hok
    cases hf : GenerateInputRequestedRegion (Region.mk g.index g.size) s.fixed.geom with
    | error e => rw [hf] at hok; exact Except.noConfusion hok
    | ok rf =>
      rw [hf] at hok
      simp only [Except.bind] at hok
      cases hm : GenerateInputRequestedRegion (Region.mk g.index g.size) s.moving.geom with
      | error e => rw [hm] at hok; exact Except.noConfusion hok
      | ok rm =>
        rw [hm] at hok
        simp only [Except.bind] at hok
        cases hok
        refine ⟨g, _, rfl, rfl, ?_⟩
        intro i hi
        rw [runTiles_apply,
          if_pos ⟨Region.mk g.index g.size, List.mem_singleton.mpr rfl, hi⟩]

/-- A hook forcing a zero output size on every axis, exercising the
incompatible-geometry branch. -/
def hookKill : Geometry 1 → Geometry 1 :=
  fun g => Geometry.mk (fun _ => 0) g.spacing g.index

/-- The concrete initial execution state: both inputs `specOne`, no output
buffer yet. -/
def sBase : ExecState 1 := ExecState.mk specOne specOne none

theorem execute_incompatible_geometry_witness :
    execute 1 hookKill sBase = Except.error PCError.incompatibleGeometry :=
  (execute_incompatible_geometry 1 hookKill sBase ⟨0, rfl⟩).2.1

/-- C9: the operator performs no writes through its input references — any
successful execution returns the fixed and moving spectra (geometry and
samples) exactly as they were bound; only the output field is filled. -/
theorem execute_inputs_read_only {N : ℕ} (eps : ℝ)
    (hook : Geometry N → Geometry N) (s s2 : ExecState N)
    (h : execute eps hook s = Except.ok s2) :
    s2.fixed = s.fixed ∧ s2.moving = s.moving := by
  unfold execute at h
  cases hg : GenerateOutputInformation hook s.fixed.geom s.moving.geom with
  | error e => rw [hg] at h; exact Except.noConfusion h
  | ok g =>
    rw [hg] at h
    simp only [Except.bind] at h
    cases hf : GenerateInputRequestedRegion (Region.mk g.index g.size) s.fixed.geom with
    | error e => rw [hf] at h; exact Except.noConfusion h
    | ok rf =>
      rw [hf] at h
      simp only [Except.bind] at h
      cases hm : GenerateInputRequestedRegion (Region.mk g.index g.size) s.moving.geom with
      | error e => rw [hm] at h; exact Except.noConfusion h
      | ok rm =>
        rw [hm] at h
        simp only [Except.bind] at h
        cases h
        exact ⟨rfl, rfl⟩

/-- The geometry the default (empty) adjustment hook leaves on the concrete
equal inputs. -/
def gRes : Geometry 1 := AdjustOutputInformation (resolveGeometry gBase gBase)

/-- Helper: on the concrete equal inputs, geometry generation with the
default hook succeeds. -/
theorem generateOutputInformation_ok_instance :
    GenerateOutputInformation AdjustOutputInformation sBase.fixed.geom sBase.moving.geom =
      Except.ok gRes := by
  unfold GenerateOutputInformation
  rw [if_pos (by decide)]
  exact rfl

/-- Helper: on the concrete inputs, the input request for the resolved
output region succeeds with the baseline region. -/
theorem requestedRegion_res_ok_instance :
    GenerateInputRequestedRegion (Region.mk gRes.index gRes.size) gBase =
      Except.ok (translateRegion (Region.mk gRes.index gRes.size) gBase.index) := by
  unfold GenerateInputRequestedRegion
  rw [if_pos (by decide)]

/-- The execution state produced by the concrete successful run. -/
noncomputable def sBaseOut : ExecState 1 :=
  ExecState.mk specOne specOne
    (some (runTiles (combinePoint 1 specOne specOne)
      [Region.mk gRes.index gRes.size] (fun _ => 0)))

/-- Helper: the concrete default execution succeeds and produces
`sBaseOut`. -/
theorem execute_default_ok_instance :
    execute 1 AdjustOutputInformation sBase = Except.ok sBaseOut := by
  unfold execute
  rw [generateOutputInformation_ok_instance]
  simp only [Except.bind]
  rw [show sBase.fixed.geom = gBase from rfl, show sBase.moving.geom = gBase from rfl,
    requestedRegion_res_ok_instance]
  exact rfl

theorem execute_inputs_read_only_witness :
    sBaseOut.fixed = sBase.fixed ∧ sBaseOut.moving = sBase.moving :=
  execute_inputs_read_only 1 AdjustOutputInformation sBase sBaseOut
    execute_default_ok_instance
